import Mathlib

/-!
Shallow embedding of the twilio_sms_ui Home Assistant integration
(custom_components/twilio_sms_ui: __init__.py, config_flow.py, const.py).

Modelling conventions:
* The per-domain store hass.data[DOMAIN] is an insertion-ordered association
  list from entry id to the stored runtime record (Python dicts preserve
  insertion order).
* The Twilio Client object of an entry is represented by an opaque string
  identity (field client); equality of clients is string equality.
* The external helper get_url(hass, ...) is a parameter of type Option String:
  some u is a successful resolution, none models the raised exception.
* Logging is modelled by an explicit list of Log values tagged with the data
  that the source passes to the logger; Log.isError distinguishes the calls
  made through LOGGER.error from warnings and debug output.
* Provider failures are modelled by a predicate fails on the target string:
  the executor job raises TwilioRestException exactly on failing targets.
-/

namespace TwilioSmsUi

/-- Runtime record stored in hass.data[DOMAIN][entry_id] by async_setup_entry. -/
structure EntryData where
  client : String
  phone_numbers : List String
  external_url : String
  debug : Bool
deriving DecidableEq

/-- hass.data[DOMAIN]: insertion-ordered mapping entry_id to EntryData. -/
abbrev HassData := List (String × EntryData)

/-- One Python-loop iteration of the aggregation in get_all_phone_numbers:
append the number unless it is already present. -/
def pyNumAppend (acc : List String) (n : String) : List String :=
  if n ∈ acc then acc else acc ++ [n]

/-- Embeds get_all_phone_numbers: the nested for-loops over all entries and
their phone_numbers lists, accumulating with a membership test. -/
def getAllPhoneNumbers (data : HassData) : List String :=
  data.foldl (fun acc e => e.2.phone_numbers.foldl pyNumAppend acc) []

/-- Helper for the spec-side de-duplication: keep elements not yet seen,
first occurrence wins, order preserved. -/
def dedupFirstAux (seen : List String) : List String → List String
  | [] => []
  | n :: rest =>
    if n ∈ seen then dedupFirstAux seen rest
    else n :: dedupFirstAux (seen ++ [n]) rest

/-- Spec-side definition, written from the spec wording: the de-duplicated
union of the concatenated lists, keeping the first occurrence of every
number and preserving order. -/
def dedupFirstOccurrence (l : List String) : List String :=
  dedupFirstAux [] l

/-- Python str.startswith for a single pattern, on the underlying character
lists (pattern first argument). -/
def listStarts : List Char → List Char → Bool
  | [], _ => true
  | _ :: _, [] => false
  | p :: ps, c :: cs => p == c && listStarts ps cs

/-- path.startswith(pat) of the source. -/
def strStartsWith (s pat : String) : Bool :=
  listStarts pat.data s.data

/-- Python rstrip("/"): drop every trailing slash character. -/
def rstripSlash (s : String) : String :=
  String.mk ((s.data.reverse.dropWhile (fun c => c == '/')).reverse)

/-- Python f-string concatenation of two strings. -/
def strConcat (a b : String) : String :=
  String.mk (a.data ++ b.data)

/-- LOCAL_PATH_PREFIXES of the source (the tuple of the three recognized
local path markers). -/
def LOCAL_PATH_STARTS : List String := ["/local/", "/media/", "/api/"]

/-- One logger call of the source, tagged with the arguments it receives. -/
inductive Log
  | errFromNotConfigured (n : String)
  | errNoClient (n : String)
  | errSendFailed (t : String)
  | warnNoUrl (path : String)
  | warnDebugConverted (path url : String)
  | warnDebugSending (t : String)
  | dbgSent (t : String)
deriving DecidableEq

/-- True exactly for the LOGGER.error calls of the source. -/
def Log.isError : Log → Bool
  | errFromNotConfigured _ => true
  | errNoClient _ => true
  | errSendFailed _ => true
  | _ => false

/-- Embeds get_external_url: first entry whose stored external_url is a
truthy (non-empty) string, in insertion order. -/
def getExternalUrl : HassData → Option String
  | [] => none
  | (_, e) :: rest =>
    if e.external_url ≠ "" then some e.external_url else getExternalUrl rest

/-- Embeds is_debug_enabled: some entry has the debug flag set. -/
def isDebugEnabled : HassData → Bool
  | [] => false
  | (_, e) :: rest => e.debug || isDebugEnabled rest

/-- The shared tail of convert_local_path_to_url once a base URL is known:
rstrip the trailing slashes of the base, concatenate the path, and emit the
debug warning when debug is enabled. -/
def mkFullUrl (data : HassData) (base path : String) : String × List Log :=
  let full := strConcat (rstripSlash base) path
  (full, if isDebugEnabled data then [Log.warnDebugConverted path full] else [])

/-- Embeds convert_local_path_to_url.  The source loops over the recognized
local path markers but the loop body does not mention the marker, so the loop
is equivalent to a single any-test.  get_url is the host helper: some u on
success, none when it raises. -/
def convertLocalPathToUrl (data : HassData) (getUrl : Option String)
    (path : String) : String × List Log :=
  if strStartsWith path "http://" || strStartsWith path "https://" then
    (path, [])
  else if LOCAL_PATH_STARTS.any (fun p => strStartsWith path p) then
    match getExternalUrl data with
    | some base => mkFullUrl data base path
    | none =>
      match getUrl with
      | some base => mkFullUrl data base path
      | none => (path, [Log.warnNoUrl path])
  else (path, [])

/-- Embeds the client-resolution loop of async_send_message: first entry in
insertion order whose phone_numbers list contains the number. -/
def findOwnerClient : HassData → String → Option String
  | [], _ => none
  | (_, e) :: rest, n =>
    if n ∈ e.phone_numbers then some e.client else findOwnerClient rest n

/-- A messages.create call handed to the Twilio client. -/
structure SendCall where
  client : String
  toNumber : String
  body : String
  from_number : String
  media : Option (List String)
deriving DecidableEq

/-- The data of one send_message service call, after template rendering
(templates live in the host; a plain string renders to itself). -/
structure InvokeCall where
  targets : List String
  message : String
  media_urls : Option (List String)
  from_number : String

/-- The per-target send loop of async_send_message: one attempted provider
call per target, in order; a failing target logs an error and the loop
continues, a succeeding one logs the debug line. -/
def sendLoop (client : String) (debugOn : Bool) (message mfrom : String)
    (media : Option (List String)) (fails : String → Bool) :
    List String → List SendCall × List Log
  | [] => ([], [])
  | t :: rest =>
    let tail := sendLoop client debugOn message mfrom media fails rest
    ({ client := client, toNumber := t, body := message, from_number := mfrom,
       media := media } :: tail.1,
     (if debugOn then [Log.warnDebugSending t] else [])
       ++ (if fails t then [Log.errSendFailed t] else [Log.dbgSent t])
       ++ tail.2)

/-- The logger output of converting the media_urls field (the conversion, and
with it its logging, happens before the membership check in the source).  An
empty list is falsy in Python and is treated like an absent field. -/
def mediaLogsOf (data : HassData) (getUrl : Option String) :
    Option (List String) → List Log
  | some urls =>
    if urls.isEmpty then []
    else urls.flatMap (fun u => (convertLocalPathToUrl data getUrl u).2)
  | none => []

/-- The converted media_urls list handed to the provider call. -/
def mediaOf (data : HassData) (getUrl : Option String) :
    Option (List String) → Option (List String)
  | some urls =>
    if urls.isEmpty then none
    else some (urls.map (fun u => (convertLocalPathToUrl data getUrl u).1))
  | none => none

/-- Embeds the body of async_send_message after template rendering: media
conversion, the aggregate membership check, owner-client resolution, and the
sequential best-effort send loop. -/
def invoke (data : HassData) (getUrl : Option String) (fails : String → Bool)
    (call : InvokeCall) : List SendCall × List Log :=
  if call.from_number ∈ getAllPhoneNumbers data then
    match findOwnerClient data call.from_number with
    | some c =>
      let loop := sendLoop c (isDebugEnabled data) call.message
        call.from_number (mediaOf data getUrl call.media_urls) fails
        call.targets
      (loop.1, mediaLogsOf data getUrl call.media_urls ++ loop.2)
    | none =>
      ([], mediaLogsOf data getUrl call.media_urls
             ++ [Log.errNoClient call.from_number])
  else
    ([], mediaLogsOf data getUrl call.media_urls
           ++ [Log.errFromNotConfigured call.from_number])

/-- The sender-number field of the registered validation schema:
vol.In(phone_numbers) when the list is non-empty, cv.string otherwise. -/
inductive FromField
  | enumOf (options : List String)
  | freeText
deriving DecidableEq

/-- Which values the validation field accepts. -/
def FromField.accepts : FromField → String → Bool
  | enumOf l, n => decide (n ∈ l)
  | freeText, _ => true

/-- Embeds get_service_schema restricted to its dynamic part (the
from_number field). -/
def mkFromField (numbers : List String) : FromField :=
  if numbers.isEmpty then .freeText else .enumOf numbers

/-- The process-wide state of the send_message service registration:
whether hass.services has the service, how many times async_register ran,
the from_number field of the validation schema given at registration, and
the selector options last published through async_set_service_schema. -/
structure ServiceState where
  registered : Bool
  registerCount : Nat
  valFrom : Option FromField
  published : Option (List String)
deriving DecidableEq

/-- The whole modelled process state. -/
structure SysState where
  data : HassData
  svc : ServiceState
deriving DecidableEq

/-- The state before any entry is set up. -/
def initState : SysState :=
  { data := [], svc := { registered := false, registerCount := 0,
                         valFrom := none, published := none } }

/-- Python dict item assignment on the association list: overwrite in place
if the key exists, append otherwise. -/
def setItem (d : HassData) (k : String) (v : EntryData) : HassData :=
  match d with
  | [] => [(k, v)]
  | (k₁, v₁) :: rest =>
    if k₁ = k then (k, v) :: rest else (k₁, v₁) :: setItem rest k v

/-- Python dict pop on the association list. -/
def removeItem (d : HassData) (k : String) : HassData :=
  match d with
  | [] => []
  | (k₁, v₁) :: rest =>
    if k₁ = k then rest else (k₁, v₁) :: removeItem rest k

/-- Embeds async_setup_entry (state part): store the runtime record, register
the service only when it is not yet registered (with the validation schema
built from this entry's numbers), then publish the service description whose
from_number selector options are the current aggregate list. -/
def setupEntry (st : SysState) (id : String) (e : EntryData) : SysState :=
  let data₁ := setItem st.data id e
  let svc₁ :=
    if st.svc.registered then st.svc
    else { st.svc with
             registered := true
             registerCount := st.svc.registerCount + 1
             valFrom := some (mkFromField e.phone_numbers) }
  { data := data₁,
    svc := { svc₁ with published := some (getAllPhoneNumbers data₁) } }

/-- Embeds async_unload_entry: pop the record; if no record remains the
service is removed, otherwise the description is refreshed from the
remaining entries. -/
def unloadEntry (st : SysState) (id : String) : SysState :=
  let data₁ := removeItem st.data id
  if data₁.isEmpty then
    { data := data₁, svc := { st.svc with registered := false } }
  else
    { data := data₁,
      svc := { st.svc with published := some (getAllPhoneNumbers data₁) } }

/-- Host lifecycle operations driving the modelled state. -/
inductive Op
  | setup (id : String) (e : EntryData)
  | unload (id : String)

/-- One lifecycle step. -/
def SysState.step (st : SysState) : Op → SysState
  | .setup id e => setupEntry st id e
  | .unload id => unloadEntry st id

/-- Run a sequence of lifecycle operations from the initial state. -/
def runOps (ops : List Op) : SysState :=
  ops.foldl SysState.step initState

/-- A state the host can actually reach by setting up and unloading
entries. -/
def Reachable (st : SysState) : Prop :=
  ∃ ops : List Op, runOps ops = st

/-- Result of the wizard credential step: either the credential form is shown
again with an error box, or the flow advances to number selection. -/
inductive UserStepResult
  | showUser (errors : List (String × String))
  | goSelect (available : List (String × String × String))
deriving DecidableEq

/-- Outcome of validate_credentials run in the executor: the listed numbers
(sid, phone_number, friendly_name), a TwilioRestException with its code, or
any other exception. -/
inductive ProviderResult
  | ok (numbers : List (String × String × String))
  | twilioError (code : Int)
  | otherError

/-- Embeds async_step_user of the config flow, for a submitted form: empty
number list shows the form again with no_phone_numbers; a provider error
shows invalid_auth exactly for code 20003 and cannot_connect otherwise; any
unexpected exception shows unknown; a non-empty list advances. -/
def asyncStepUser (r : ProviderResult) : UserStepResult :=
  match r with
  | .ok numbers =>
    if numbers.isEmpty then .showUser [("base", "no_phone_numbers")]
    else .goSelect numbers
  | .twilioError code =>
    if code = 20003 then .showUser [("base", "invalid_auth")]
    else .showUser [("base", "cannot_connect")]
  | .otherError => .showUser [("base", "unknown")]

theorem foldl_pyNumAppend (l : List String) :
    ∀ acc : List String, l.foldl pyNumAppend acc = acc ++ dedupFirstAux acc l := by
  induction l with
  | nil => intro acc; simp [dedupFirstAux]
  | cons n rest ih =>
    intro acc
    simp only [List.foldl_cons, pyNumAppend, dedupFirstAux]
    by_cases h : n ∈ acc
    · simp [h, ih acc]
    · simp [h, ih (acc ++ [n])]

theorem foldl_entries (data : HassData) :
    ∀ acc : List String,
      data.foldl (fun a e => e.2.phone_numbers.foldl pyNumAppend a) acc
        = (data.flatMap (fun e => e.2.phone_numbers)).foldl pyNumAppend acc := by
  induction data with
  | nil => intro acc; simp
  | cons e rest ih =>
    intro acc
    simp [List.foldl_append, ih]

theorem dedupFirstAux_mem (l : List String) :
    ∀ (seen : List String) (x : String),
      x ∈ dedupFirstAux seen l ↔ x ∈ l ∧ x ∉ seen := by
  induction l with
  | nil => intro seen x; simp [dedupFirstAux]
  | cons n rest ih =>
    intro seen x
    simp only [dedupFirstAux]
    by_cases h : n ∈ seen
    · rw [if_pos h, ih]
      constructor
      · rintro ⟨hx, hs⟩
        exact ⟨List.mem_cons_of_mem _ hx, hs⟩
      · rintro ⟨hx, hs⟩
        rcases List.mem_cons.mp hx with heq | hmem
        · exact absurd (heq ▸ h) hs
        · exact ⟨hmem, hs⟩
    · rw [if_neg h]
      rw [List.mem_cons, ih (seen ++ [n]) x, List.mem_cons]
      have hsn : x ∈ seen ++ [n] ↔ x ∈ seen ∨ x = n := by simp
      constructor
      · rintro (heq | ⟨hx, hs⟩)
        · exact ⟨Or.inl heq, heq ▸ h⟩
        · exact ⟨Or.inr hx, fun hc => hs (hsn.mpr (Or.inl hc))⟩
      · rintro ⟨heq | hx, hs⟩
        · exact Or.inl heq
        · by_cases hxn : x = n
          · exact Or.inl hxn
          · exact Or.inr ⟨hx, fun hc => ((hsn.mp hc).elim hs hxn)⟩

theorem dedupFirstAux_nodup (l : List String) :
    ∀ seen : List String, (dedupFirstAux seen l).Nodup := by
  induction l with
  | nil => intro seen; simp [dedupFirstAux]
  | cons n rest ih =>
    intro seen
    simp only [dedupFirstAux]
    by_cases h : n ∈ seen
    · rw [if_pos h]; exact ih seen
    · rw [if_neg h]
      refine List.nodup_cons.mpr ⟨?_, ih (seen ++ [n])⟩
      intro hmem
      have hx := (dedupFirstAux_mem rest (seen ++ [n]) n).mp hmem
      exact hx.2 (List.mem_append.mpr (Or.inr (List.mem_singleton.mpr rfl)))

/-- C1: the aggregate sender-number list equals the de-duplicated union of
all entries' phone-number lists, first occurrence kept, insertion order of
entries and of numbers within each entry preserved; no number appears twice. -/
theorem claim1_aggregate_is_dedup_union (data : HassData) :
    getAllPhoneNumbers data
        = dedupFirstOccurrence (data.flatMap (fun e => e.2.phone_numbers))
      ∧ (getAllPhoneNumbers data).Nodup := by
  have hfold : getAllPhoneNumbers data
      = dedupFirstOccurrence (data.flatMap (fun e => e.2.phone_numbers)) := by
    unfold getAllPhoneNumbers dedupFirstOccurrence
    rw [foldl_entries data []]
    simpa using foldl_pyNumAppend (data.flatMap (fun e => e.2.phone_numbers)) []
  exact ⟨hfold, hfold ▸ dedupFirstAux_nodup _ []⟩

theorem aggregate_eq (data : HassData) :
    getAllPhoneNumbers data
      = dedupFirstAux [] (data.flatMap (fun e => e.2.phone_numbers)) := by
  unfold getAllPhoneNumbers
  rw [foldl_entries data []]
  simpa using foldl_pyNumAppend (data.flatMap (fun e => e.2.phone_numbers)) []

theorem mem_aggregate (data : HassData) (n : String) :
    n ∈ getAllPhoneNumbers data ↔ ∃ p ∈ data, n ∈ p.2.phone_numbers := by
  rw [aggregate_eq, dedupFirstAux_mem]
  simp [List.mem_flatMap]

theorem owner_of_mem (data : HassData) (n : String)
    (h : ∃ p ∈ data, n ∈ p.2.phone_numbers) :
    ∃ c, findOwnerClient data n = some c := by
  induction data with
  | nil => simp at h
  | cons q rest ih =>
    obtain ⟨k, e⟩ := q
    by_cases hq : n ∈ e.phone_numbers
    · exact ⟨e.client, by simp [findOwnerClient, hq]⟩
    · obtain ⟨p, hp, hpn⟩ := h
      rcases List.mem_cons.mp hp with rfl | hp₁
      · exact absurd hpn hq
      · obtain ⟨c, hc⟩ := ih ⟨p, hp₁, hpn⟩
        exact ⟨c, by simp [findOwnerClient, hq, hc]⟩

theorem setItem_not_empty (d : HassData) (k : String) (v : EntryData) :
    (setItem d k v).isEmpty = false := by
  cases d with
  | nil => rfl
  | cons p rest =>
    obtain ⟨k₁, v₁⟩ := p
    simp only [setItem]
    by_cases h : k₁ = k
    · rw [if_pos h]; rfl
    · rw [if_neg h]; rfl

theorem step_preserves_inv (st : SysState) (op : Op)
    (h : st.svc.registered = !st.data.isEmpty) :
    (st.step op).svc.registered = !(st.step op).data.isEmpty := by
  cases op with
  | setup id e =>
    show (setupEntry st id e).svc.registered = !(setupEntry st id e).data.isEmpty
    unfold setupEntry
    by_cases hr : st.svc.registered
    · simp [hr, setItem_not_empty]
    · simp [hr, setItem_not_empty]
  | unload id =>
    show (unloadEntry st id).svc.registered = !(unloadEntry st id).data.isEmpty
    unfold unloadEntry
    by_cases he : (removeItem st.data id).isEmpty
    · simp [he]
    · have hsd : st.data.isEmpty = false := by
        cases hd : st.data with
        | nil =>
          exfalso
          apply he
          rw [hd]
          rfl
        | cons p rest => rfl
      simp [he, h, hsd]

theorem reachable_inv (st : SysState) (h : Reachable st) :
    st.svc.registered = !st.data.isEmpty := by
  obtain ⟨ops, rfl⟩ := h
  have main : ∀ (l : List Op) (s : SysState),
      s.svc.registered = !s.data.isEmpty →
      (l.foldl SysState.step s).svc.registered
        = !(l.foldl SysState.step s).data.isEmpty := by
    intro l
    induction l with
    | nil => intro s hs; exact hs
    | cons op rest ih =>
      intro s hs
      exact ih _ (step_preserves_inv s op hs)
  exact main ops initState rfl

theorem dedupFirstAux_nil_iff (l : List String) :
    dedupFirstAux [] l = [] ↔ l = [] := by
  cases l with
  | nil => simp [dedupFirstAux]
  | cons n rest => simp [dedupFirstAux]

/-- C2: every activation leaves the action registered with the published
selector options equal to the freshly computed aggregate list; a second
activation does not re-register (the register count and the registered
validation field stay untouched); a first activation registers once with a
validation field that accepts exactly the aggregate numbers, falling back to
a free-form field when the aggregate is empty. -/
theorem claim2_register_once_and_refresh (st : SysState) (h : Reachable st)
    (id : String) (e : EntryData) :
    (setupEntry st id e).svc.registered = true
    ∧ (setupEntry st id e).svc.published
        = some (getAllPhoneNumbers (setupEntry st id e).data)
    ∧ (st.svc.registered = true →
        (setupEntry st id e).svc.registerCount = st.svc.registerCount
        ∧ (setupEntry st id e).svc.valFrom = st.svc.valFrom)
    ∧ (st.svc.registered = false →
        (setupEntry st id e).svc.registerCount = st.svc.registerCount + 1
        ∧ ∃ f, (setupEntry st id e).svc.valFrom = some f
          ∧ ((getAllPhoneNumbers (setupEntry st id e).data = []
                ∧ f = FromField.freeText)
             ∨ (getAllPhoneNumbers (setupEntry st id e).data ≠ []
                ∧ ∀ n, f.accepts n = true
                    ↔ n ∈ getAllPhoneNumbers (setupEntry st id e).data))) := by
  refine ⟨?_, ?_, ?_, ?_⟩
  · unfold setupEntry
    by_cases hr : st.svc.registered <;> simp [hr]
  · unfold setupEntry
    by_cases hr : st.svc.registered <;> simp [hr]
  · intro hr
    unfold setupEntry
    simp [hr]
  · intro hr
    have hdata : st.data = [] := by
      have hi := reachable_inv st h
      rw [hr] at hi
      cases hd : st.data with
      | nil => rfl
      | cons p rest => rw [hd] at hi; simp at hi
    have hset : setItem st.data id e = [(id, e)] := by rw [hdata]; rfl
    have hagg : getAllPhoneNumbers (setupEntry st id e).data
        = dedupFirstAux [] e.phone_numbers := by
      unfold setupEntry
      simp only [hset]
      rw [aggregate_eq]
      simp
    constructor
    · unfold setupEntry; simp [hr]
    · refine ⟨mkFromField e.phone_numbers, ?_, ?_⟩
      · unfold setupEntry; simp [hr]
      · cases hnum : e.phone_numbers with
        | nil =>
          left
          constructor
          · rw [hagg, hnum]; rfl
          · simp [mkFromField, hnum]
        | cons m rest =>
          right
          constructor
          · rw [hagg, hnum]
            simp [dedupFirstAux]
          · intro n
            rw [hagg]
            simp only [mkFromField, hnum, List.isEmpty_cons,
              Bool.false_eq_true, if_false, FromField.accepts,
              decide_eq_true_eq]
            rw [dedupFirstAux_mem]
            simp [hnum]

/-- Entry used by several concrete witness instantiations. -/
def wEntry : EntryData :=
  { client := "cw", phone_numbers := ["+15550001"],
    external_url := "", debug := false }

theorem claim2_register_once_witness :
    (setupEntry initState "w1" wEntry).svc.registered = true
    ∧ (setupEntry initState "w1" wEntry).svc.registerCount = 0 + 1 := by
  have happ := claim2_register_once_and_refresh initState ⟨[], rfl⟩ "w1" wEntry
  exact ⟨happ.1, (happ.2.2.2 rfl).1⟩

/-- C6: after a deactivation, the action is deregistered exactly when no
entry remains; otherwise it stays registered and the published selector
options are recomputed from the remaining entries only.  In particular the
registration exists if and only if at least one entry is present. -/
theorem claim6_unload_registration (st : SysState) (h : Reachable st)
    (id : String) :
    ((unloadEntry st id).data.isEmpty = true →
        (unloadEntry st id).svc.registered = false)
    ∧ ((unloadEntry st id).data.isEmpty = false →
        (unloadEntry st id).svc.registered = true
        ∧ (unloadEntry st id).svc.published
            = some (getAllPhoneNumbers (unloadEntry st id).data))
    ∧ ((unloadEntry st id).svc.registered = true
        ↔ (unloadEntry st id).data.isEmpty = false) := by
  have hinv : (unloadEntry st id).svc.registered
      = !(unloadEntry st id).data.isEmpty :=
    step_preserves_inv st (Op.unload id) (reachable_inv st h)
  refine ⟨?_, ?_, ?_⟩
  · intro he; rw [hinv, he]; rfl
  · intro he
    refine ⟨by rw [hinv, he]; rfl, ?_⟩
    unfold unloadEntry
    unfold unloadEntry at he
    by_cases hr : (removeItem st.data id).isEmpty
    · rw [if_pos hr] at he
      simp [hr] at he
    · simp [hr]
  · rw [hinv]
    cases (unloadEntry st id).data.isEmpty <;> simp

theorem claim6_unload_witness :
    (unloadEntry (setupEntry initState "a" wEntry) "a").svc.registered
      = false := by
  have happ := claim6_unload_registration (setupEntry initState "a" wEntry)
    ⟨[Op.setup "a" wEntry], rfl⟩ "a"
  exact happ.1 (by decide)

theorem mkFullUrl_logs_not_error (data : HassData) (base path : String) :
    ∀ l ∈ (mkFullUrl data base path).2, l.isError = false := by
  intro l hl
  unfold mkFullUrl at hl
  split at hl
  · simp at hl
    subst hl
    rfl
  · simp at hl

theorem convert_logs_not_error (data : HassData) (getUrl : Option String)
    (path : String) :
    ∀ l ∈ (convertLocalPathToUrl data getUrl path).2, l.isError = false := by
  intro l hl
  unfold convertLocalPathToUrl at hl
  split at hl
  · simp at hl
  · split at hl
    · split at hl
      · exact mkFullUrl_logs_not_error data _ path l hl
      · split at hl
        · exact mkFullUrl_logs_not_error data _ path l hl
        · simp at hl
          subst hl
          rfl
    · simp at hl

theorem mediaLogs_not_error (data : HassData) (getUrl : Option String)
    (m : Option (List String)) :
    ∀ l ∈ mediaLogsOf data getUrl m, l.isError = false := by
  intro l hl
  unfold mediaLogsOf at hl
  split at hl
  · split at hl
    · simp at hl
    · obtain ⟨u, _, hu⟩ := List.mem_flatMap.mp hl
      exact convert_logs_not_error data getUrl u l hu
  · simp at hl

theorem sendLoop_targets (client : String) (debugOn : Bool)
    (message mfrom : String) (media : Option (List String))
    (fails : String → Bool) :
    ∀ ts : List String,
      (sendLoop client debugOn message mfrom media fails ts).1.map
        (fun s => s.toNumber) = ts := by
  intro ts
  induction ts with
  | nil => rfl
  | cons t rest ih => simp [sendLoop, ih]

theorem sendLoop_clients (client : String) (debugOn : Bool)
    (message mfrom : String) (media : Option (List String))
    (fails : String → Bool) :
    ∀ ts : List String,
      ∀ s ∈ (sendLoop client debugOn message mfrom media fails ts).1,
        s.client = client := by
  intro ts
  induction ts with
  | nil => intro s hs; simp [sendLoop] at hs
  | cons t rest ih =>
    intro s hs
    rcases List.mem_cons.mp hs with rfl | hs₁
    · rfl
    · exact ih s hs₁

theorem sendLoop_errors (client : String) (debugOn : Bool)
    (message mfrom : String) (media : Option (List String))
    (fails : String → Bool) :
    ∀ ts : List String, ∀ t ∈ ts, fails t = true →
      Log.errSendFailed t
        ∈ (sendLoop client debugOn message mfrom media fails ts).2 := by
  intro ts
  induction ts with
  | nil => intro t ht; simp at ht
  | cons u rest ih =>
    intro t ht hf
    rcases List.mem_cons.mp ht with rfl | ht₁
    · simp [sendLoop, hf]
    · simp only [sendLoop, List.mem_append]
      exact Or.inr (ih t ht₁ hf)

/-- C4: an invocation whose from_number is outside the aggregate list makes
zero provider calls and logs exactly one error (the media-conversion logging
that precedes the check produces only warnings and debug output). -/
theorem claim4_unknown_sender_no_sends (data : HassData)
    (getUrl : Option String) (fails : String → Bool) (call : InvokeCall)
    (h : call.from_number ∉ getAllPhoneNumbers data) :
    (invoke data getUrl fails call).1 = []
    ∧ ((invoke data getUrl fails call).2.filter Log.isError).length = 1 := by
  have hbody : invoke data getUrl fails call
      = ([], mediaLogsOf data getUrl call.media_urls
               ++ [Log.errFromNotConfigured call.from_number]) := by
    unfold invoke
    rw [if_neg h]
  rw [hbody]
  refine ⟨rfl, ?_⟩
  rw [List.filter_append]
  have hmedia : (mediaLogsOf data getUrl call.media_urls).filter Log.isError
      = [] := by
    rw [List.filter_eq_nil_iff]
    intro l hl
    rw [mediaLogs_not_error data getUrl call.media_urls l hl]
    simp
  rw [hmedia]
  rfl

theorem claim4_unknown_sender_witness :
    "+15550009" ∉ getAllPhoneNumbers []
    ∧ (invoke [] none (fun _ => false)
        { targets := ["+15557777"], message := "hello", media_urls := none,
          from_number := "+15550009" }).1 = [] :=
  ⟨by decide,
   (claim4_unknown_sender_no_sends [] none (fun _ => false)
     { targets := ["+15557777"], message := "hello", media_urls := none,
       from_number := "+15550009" } (by decide)).1⟩

/-- C5: when the from_number is in the aggregate list, one provider call is
attempted per rendered target, in target-list order; a failing target is
recorded with an error and the later targets are still attempted; every call
goes through the one resolved owning client. -/
theorem claim5_sequential_per_target (data : HassData)
    (getUrl : Option String) (fails : String → Bool) (call : InvokeCall)
    (h : call.from_number ∈ getAllPhoneNumbers data) :
    ((invoke data getUrl fails call).1.map (fun s => s.toNumber)
        = call.targets)
    ∧ (∀ t ∈ call.targets, fails t = true →
        Log.errSendFailed t ∈ (invoke data getUrl fails call).2)
    ∧ ∃ c, findOwnerClient data call.from_number = some c
        ∧ ∀ s ∈ (invoke data getUrl fails call).1, s.client = c := by
  obtain ⟨c, hc⟩ := owner_of_mem data call.from_number
    ((mem_aggregate data call.from_number).mp h)
  have hbody : invoke data getUrl fails call
      = ((sendLoop c (isDebugEnabled data) call.message call.from_number
            (mediaOf data getUrl call.media_urls) fails call.targets).1,
         mediaLogsOf data getUrl call.media_urls
           ++ (sendLoop c (isDebugEnabled data) call.message call.from_number
                 (mediaOf data getUrl call.media_urls) fails
                 call.targets).2) := by
    unfold invoke
    rw [if_pos h, hc]
  rw [hbody]
  refine ⟨sendLoop_targets _ _ _ _ _ _ _, ?_, c, hc, ?_⟩
  · intro t ht hf
    exact List.mem_append.mpr
      (Or.inr (sendLoop_errors _ _ _ _ _ _ call.targets t ht hf))
  · intro s hs
    exact sendLoop_clients _ _ _ _ _ _ call.targets s hs

theorem claim5_sequential_witness :
    ((invoke [("a", wEntry)] none (fun t => t == "+15550002")
        { targets := ["+15550002", "+15550003"], message := "m",
          media_urls := none, from_number := "+15550001" }).1.map
      (fun s => s.toNumber)) = ["+15550002", "+15550003"] :=
  (claim5_sequential_per_target [("a", wEntry)] none
    (fun t => t == "+15550002")
    { targets := ["+15550002", "+15550003"], message := "m",
      media_urls := none, from_number := "+15550001" } (by decide)).1

/-- C7: when two entries both list the same number, an invocation with that
number resolves the client of the first-registered entry containing it, and
every issued provider call goes through that client. -/
theorem claim7_shared_number_routing (id₁ id₂ : String) (e₁ e₂ : EntryData)
    (n : String) (getUrl : Option String) (fails : String → Bool)
    (call : InvokeCall)
    (h₁ : n ∈ e₁.phone_numbers) (h₂ : n ∈ e₂.phone_numbers)
    (hcall : call.from_number = n) :
    findOwnerClient [(id₁, e₁), (id₂, e₂)] n = some e₁.client
    ∧ ∀ s ∈ (invoke [(id₁, e₁), (id₂, e₂)] getUrl fails call).1,
        s.client = e₁.client := by
  have hown : findOwnerClient [(id₁, e₁), (id₂, e₂)] n = some e₁.client := by
    unfold findOwnerClient
    rw [if_pos h₁]
  refine ⟨hown, ?_⟩
  have hmem : call.from_number
      ∈ getAllPhoneNumbers [(id₁, e₁), (id₂, e₂)] := by
    rw [hcall, mem_aggregate]
    exact ⟨(id₁, e₁), by simp, h₁⟩
  have hbody : invoke [(id₁, e₁), (id₂, e₂)] getUrl fails call
      = ((sendLoop e₁.client (isDebugEnabled [(id₁, e₁), (id₂, e₂)])
            call.message call.from_number
            (mediaOf [(id₁, e₁), (id₂, e₂)] getUrl call.media_urls) fails
            call.targets).1,
         mediaLogsOf [(id₁, e₁), (id₂, e₂)] getUrl call.media_urls
           ++ (sendLoop e₁.client (isDebugEnabled [(id₁, e₁), (id₂, e₂)])
                 call.message call.from_number
                 (mediaOf [(id₁, e₁), (id₂, e₂)] getUrl call.media_urls)
                 fails call.targets).2) := by
    unfold invoke
    rw [if_pos hmem, hcall, hown]
  rw [hbody]
  intro s hs
  exact sendLoop_clients _ _ _ _ _ _ call.targets s hs

/-- Entries sharing a number, used by the C7 witness. -/
def shEntry₁ : EntryData :=
  { client := "cFirst", phone_numbers := ["+15559999"],
    external_url := "", debug := false }

def shEntry₂ : EntryData :=
  { client := "cSecond", phone_numbers := ["+15559999"],
    external_url := "", debug := false }

theorem claim7_shared_number_witness :
    findOwnerClient [("x", shEntry₁), ("y", shEntry₂)] "+15559999"
      = some "cFirst" :=
  (claim7_shared_number_routing "x" "y" shEntry₁ shEntry₂ "+15559999" none
    (fun _ => false)
    { targets := ["+15550000"], message := "m", media_urls := none,
      from_number := "+15559999" }
    (by decide) (by decide) rfl).1

theorem getExternalUrl_first_nonempty (id : String) (e : EntryData)
    (post : HassData) (he : e.external_url ≠ "") :
    ∀ pre : HassData, (∀ q ∈ pre, q.2.external_url = "") →
      getExternalUrl (pre ++ (id, e) :: post) = some e.external_url := by
  intro pre
  induction pre with
  | nil =>
    intro _
    simp [getExternalUrl, he]
  | cons q rest ih =>
    intro hpre
    obtain ⟨qk, qe⟩ := q
    have hq : qe.external_url = "" := hpre (qk, qe) (List.mem_cons_self _ _)
    simp only [List.cons_append, getExternalUrl]
    rw [if_neg (by simp [hq])]
    exact ih (fun x hx => hpre x (List.mem_cons_of_mem _ hx))

theorem getExternalUrl_none_of_all_empty :
    ∀ data : HassData, (∀ q ∈ data, q.2.external_url = "") →
      getExternalUrl data = none := by
  intro data
  induction data with
  | nil => intro _; rfl
  | cons q rest ih =>
    intro h
    obtain ⟨qk, qe⟩ := q
    have hq : qe.external_url = "" := h (qk, qe) (List.mem_cons_self _ _)
    simp only [getExternalUrl]
    rw [if_neg (by simp [hq])]
    exact ih (fun x hx => h x (List.mem_cons_of_mem _ hx))

/-- Entry whose external URL is the one the code actually picks in the C3
counterexample (it is first in insertion order). -/
def cexOtherEntry : EntryData :=
  { client := "cOther", phone_numbers := ["+15550001"],
    external_url := "https://first.example", debug := false }

/-- Entry owning the sender number in the C3 counterexample; its own
external URL is not the one used. -/
def cexOwnEntry : EntryData :=
  { client := "cOwn", phone_numbers := ["+15550002"],
    external_url := "https://own.example", debug := false }

def cexData : HassData := [("e1", cexOtherEntry), ("e2", cexOwnEntry)]

/-- C3 counterexample: with two configured entries, the invocation with
"+15550002" is owned by the second entry (client cOwn) whose external URL is
"https://own.example", yet the media rewrite uses the first entry's
"https://first.example" — the owning configuration's URL is not preferred. -/
theorem claim3_counterexample_owner_url_ignored :
    findOwnerClient cexData "+15550002" = some "cOwn"
    ∧ cexOwnEntry.external_url = "https://own.example"
    ∧ (convertLocalPathToUrl cexData (some "https://host.example")
        "/local/p.jpg").1 = "https://first.example/local/p.jpg"
    ∧ ¬ (convertLocalPathToUrl cexData (some "https://host.example")
          "/local/p.jpg").1
        = strConcat (rstripSlash cexOwnEntry.external_url) "/local/p.jpg" := by
  decide

/-- C3 (amended): for a rendered media reference that is not an absolute
network address and starts with a recognized local path marker, the base URL
is the first non-empty configured external URL over all entries in insertion
order — not necessarily the owning configuration's; when no entry configures
one, the host resolution is used; when that also fails the original path is
returned unchanged and the no-URL warning is recorded; and an invocation with
a valid sender still issues one send per target whatever the conversion
produced. -/
theorem claim3_amended_base_url_choice (data : HassData)
    (getUrl : Option String) (path : String)
    (h1 : strStartsWith path "http://" = false)
    (h2 : strStartsWith path "https://" = false)
    (h3 : LOCAL_PATH_STARTS.any (fun p => strStartsWith path p) = true) :
    (∀ (pre post : HassData) (id : String) (e : EntryData),
        data = pre ++ (id, e) :: post →
        (∀ q ∈ pre, q.2.external_url = "") →
        e.external_url ≠ "" →
        (convertLocalPathToUrl data getUrl path).1
          = strConcat (rstripSlash e.external_url) path)
    ∧ (∀ u : String, (∀ q ∈ data, q.2.external_url = "") →
        getUrl = some u →
        (convertLocalPathToUrl data getUrl path).1
          = strConcat (rstripSlash u) path)
    ∧ ((∀ q ∈ data, q.2.external_url = "") → getUrl = none →
        convertLocalPathToUrl data getUrl path
          = (path, [Log.warnNoUrl path]))
    ∧ (∀ (fails : String → Bool) (call : InvokeCall),
        call.from_number ∈ getAllPhoneNumbers data →
        ((invoke data getUrl fails call).1.map (fun s => s.toNumber))
          = call.targets) := by
  have hor : (strStartsWith path "http://"
      || strStartsWith path "https://") = false := by
    rw [h1, h2]
    rfl
  refine ⟨?_, ?_, ?_, ?_⟩
  · intro pre post id e hdata hpre he
    have hext : getExternalUrl data = some e.external_url := by
      rw [hdata]
      exact getExternalUrl_first_nonempty id e post he pre hpre
    unfold convertLocalPathToUrl
    rw [hor, hext]
    simp [h3, mkFullUrl]
  · intro u hall hu
    have hext : getExternalUrl data = none :=
      getExternalUrl_none_of_all_empty data hall
    unfold convertLocalPathToUrl
    rw [hor, hext, hu]
    simp [h3, mkFullUrl]
  · intro hall hu
    have hext : getExternalUrl data = none :=
      getExternalUrl_none_of_all_empty data hall
    unfold convertLocalPathToUrl
    rw [hor, hext, hu]
    simp [h3]
  · intro fails call hmem
    obtain ⟨c, hc⟩ := owner_of_mem data call.from_number
      ((mem_aggregate data call.from_number).mp hmem)
    have hbody : invoke data getUrl fails call
        = ((sendLoop c (isDebugEnabled data) call.message call.from_number
              (mediaOf data getUrl call.media_urls) fails call.targets).1,
           mediaLogsOf data getUrl call.media_urls
             ++ (sendLoop c (isDebugEnabled data) call.message
                   call.from_number (mediaOf data getUrl call.media_urls)
                   fails call.targets).2) := by
      unfold invoke
      rw [if_pos hmem, hc]
    rw [hbody]
    exact sendLoop_targets _ _ _ _ _ _ _

theorem claim3_amended_witness :
    (convertLocalPathToUrl [("e1", cexOtherEntry)] none "/local/x.jpg").1
      = strConcat (rstripSlash cexOtherEntry.external_url) "/local/x.jpg" :=
  (claim3_amended_base_url_choice [("e1", cexOtherEntry)] none "/local/x.jpg"
    (by decide) (by decide) (by decide)).1 [] [] "e1" cexOtherEntry rfl
    (by simp) (by decide)

theorem dropWhile_head_false (p : Char → Bool) :
    ∀ (l : List Char) (c : Char),
      (l.dropWhile p).head? = some c → p c = false := by
  intro l
  induction l with
  | nil =>
    intro c h
    simp [List.dropWhile] at h
  | cons a as ih =>
    intro c h
    rw [List.dropWhile_cons] at h
    by_cases hp : p a = true
    · rw [if_pos hp] at h
      exact ih c h
    · rw [if_neg hp] at h
      simp only [List.head?_cons, Option.some.injEq] at h
      subst h
      exact Bool.eq_false_iff.mpr hp

theorem rstripSlash_last_not_slash (s : String) :
    (rstripSlash s).data.getLast? ≠ some '/' := by
  unfold rstripSlash
  intro hcontra
  rw [show (String.mk ((s.data.reverse.dropWhile
      (fun c => c == '/')).reverse)).data
    = (s.data.reverse.dropWhile (fun c => c == '/')).reverse from rfl] at hcontra
  rw [List.getLast?_reverse] at hcontra
  have := dropWhile_head_false (fun c => c == '/') s.data.reverse '/' hcontra
  simp at this

/-- C8: with a configured external URL, the rewritten media reference is the
rstripped base followed by the path, the rstripped base never ends in a
slash (so a trailing slash in the configured URL cannot produce a double
slash at the junction), and /local/photo.jpg with https://example.com
becomes https://example.com/local/photo.jpg. -/
theorem claim8_concat_no_double_slash (b path id : String) (e : EntryData)
    (hb : e.external_url = b) (hbne : b ≠ "")
    (h1 : strStartsWith path "http://" = false)
    (h2 : strStartsWith path "https://" = false)
    (h3 : strStartsWith path "/local/" = true) :
    (convertLocalPathToUrl [(id, e)] none path).1.data
        = (rstripSlash b).data ++ path.data
    ∧ (rstripSlash b).data.getLast? ≠ some '/'
    ∧ (convertLocalPathToUrl
         [("e1", { client := "c1", phone_numbers := ["+15551234567"],
                   external_url := "https://example.com", debug := false })]
         none "/local/photo.jpg").1 = "https://example.com/local/photo.jpg" := by
  have hor : (strStartsWith path "http://"
      || strStartsWith path "https://") = false := by
    rw [h1, h2]
    rfl
  have hany : LOCAL_PATH_STARTS.any (fun p => strStartsWith path p) = true := by
    simp [LOCAL_PATH_STARTS, h3]
  have hext : getExternalUrl [(id, e)] = some b := by
    simp [getExternalUrl, hb, hbne]
  refine ⟨?_, rstripSlash_last_not_slash b, by decide⟩
  unfold convertLocalPathToUrl
  rw [hor, hany, hext]
  simp [mkFullUrl, strConcat]

theorem claim8_concat_witness :
    (convertLocalPathToUrl
        [("w", { client := "c", phone_numbers := ["+15551234567"],
                 external_url := "https://example.com/", debug := false })]
        none "/local/photo.jpg").1.data
      = (rstripSlash "https://example.com/").data ++ "/local/photo.jpg".data :=
  (claim8_concat_no_double_slash "https://example.com/" "/local/photo.jpg" "w"
    { client := "c", phone_numbers := ["+15551234567"],
      external_url := "https://example.com/", debug := false }
    rfl (by decide) (by decide) (by decide) (by decide)).1

/-- C9: the wizard credential step maps an empty number list to the
no_phone_numbers error, provider code 20003 to invalid_auth, any other
provider code to cannot_connect, and an unexpected exception to unknown; in
every error case the same credential form is shown again (the result is
showUser, not an advance). -/
theorem claim9_credential_step_outcomes (code : Int) (hcode : code ≠ 20003) :
    asyncStepUser (ProviderResult.ok [])
        = UserStepResult.showUser [("base", "no_phone_numbers")]
    ∧ asyncStepUser (ProviderResult.twilioError 20003)
        = UserStepResult.showUser [("base", "invalid_auth")]
    ∧ asyncStepUser (ProviderResult.twilioError code)
        = UserStepResult.showUser [("base", "cannot_connect")]
    ∧ asyncStepUser ProviderResult.otherError
        = UserStepResult.showUser [("base", "unknown")] := by
  refine ⟨rfl, rfl, ?_, rfl⟩
  simp [asyncStepUser, hcode]

theorem claim9_credential_step_witness :
    asyncStepUser (ProviderResult.twilioError 20004)
      = UserStepResult.showUser [("base", "cannot_connect")] :=
  (claim9_credential_step_outcomes 20004 (by decide)).2.2.1

/-- C10: a media reference that is not an absolute network address and does
not start with any of /local/, /media/ or /api/ is returned unchanged (and
without any log output), whatever the configured external URL or the host
resolution. -/
theorem claim10_unrecognized_path_unchanged (data : HassData)
    (getUrl : Option String) (path : String)
    (h1 : strStartsWith path "http://" = false)
    (h2 : strStartsWith path "https://" = false)
    (h3 : strStartsWith path "/local/" = false)
    (h4 : strStartsWith path "/media/" = false)
    (h5 : strStartsWith path "/api/" = false) :
    convertLocalPathToUrl data getUrl path = (path, []) := by
  have hor : (strStartsWith path "http://"
      || strStartsWith path "https://") = false := by
    rw [h1, h2]
    rfl
  have hany : LOCAL_PATH_STARTS.any (fun p => strStartsWith path p)
      = false := by
    simp [LOCAL_PATH_STARTS, h3, h4, h5]
  unfold convertLocalPathToUrl
  rw [hor, hany]
  rfl

theorem claim10_unrecognized_witness :
    convertLocalPathToUrl cexData (some "https://host.example") "ftp.jpg"
      = ("ftp.jpg", []) :=
  claim10_unrecognized_path_unchanged cexData (some "https://host.example")
    "ftp.jpg" (by decide) (by decide) (by decide) (by decide) (by decide)

end TwilioSmsUi
